import Mathlib

/-!
Shallow embedding of two scripts from the `misc_domino_scripts` repository:

* `manage_org_members.py` — the batch organization-membership reconciler
  (`DominoOrgManager.manage_members` and its helpers `get_organization_info`,
  `get_users_batch`, `add_member`, `remove_member`, and `main`'s exit code).
* `download_daily_usage_reports_v2.py` — the retrying daily usage-report
  generator (`generate_daily_report` and `main`'s date loop).

Network I/O is modelled by explicit environments: the remote responses
(user list, organization list, per-mutation outcome) are inputs, and the
mutating network requests a run issues are collected in an explicit trace.
Remote fetches of read-only data (the user list and the organization list)
are modelled as returning well-formed JSON without raising; mutating calls
may fail, which models `requests.exceptions.RequestException`.
-/

namespace ManageOrgMembers

/-- Python truthiness for an optional string: `None` and `""` are falsy. -/
def truthy : Option String → Bool
  | none => false
  | some s => s ≠ ""

/-- One entry of the `users` array returned by `GET /api/users/v1/users`;
`userName` or `id` may be absent (`user.get(...)` returns `None`). -/
structure RemoteUser where
  userName : Option String
  id : Option String
deriving DecidableEq

/-- One entry of the `orgs` array returned by the name-filtered organization
query. `members` is the list of `userId` fields of the `members` array. -/
structure Org where
  name : Option String
  id : Option String
  members : List String
deriving DecidableEq

/-- The `all_users_map` dictionary built by `get_users_batch`: iterate the
remote user list in order, keeping entries whose `userName` and `id` are both
truthy; a later entry with the same `userName` overwrites an earlier one,
exactly as Python dict assignment does. -/
def all_users_map (users : List RemoteUser) : String → Option String :=
  users.foldl
    (fun m u =>
      match u.userName, u.id with
      | some n, some i =>
          if n ≠ "" ∧ i ≠ "" then fun k => if k = n then some i else m k else m
      | _, _ => m)
    (fun _ => none)

/-- Resolution of one requested username, combining `get_users_batch`'s
`result[username] = all_users_map.get(username)` with the truthiness test
`if user_id:` in `manage_members`: the result is `some uid` exactly when the
lookup produced a truthy user id. -/
def resolveUser (users : List RemoteUser) (un : String) : Option String :=
  match all_users_map users un with
  | some uid => if uid = "" then none else some uid
  | none => none

/-- The `user_ids_to_process` list of `manage_members` (lines 389-398):
the `(username, user_id)` pairs, in input order, whose username resolved. -/
def user_ids_to_process (usernames : List String) (users : List RemoteUser) :
    List (String × String) :=
  usernames.filterMap (fun un => (resolveUser users un).map (fun uid => (un, uid)))

/-- The `missing_users` list of `manage_members`: usernames, in input order,
whose lookup was not truthy. -/
def missing_users (usernames : List String) (users : List RemoteUser) : List String :=
  usernames.filter (fun un => (resolveUser users un).isNone)

/-- The `get_organization_info` method (lines 190-233): over the `orgs` array
of the name-filtered response, return the first organization whose `name`
field equals the requested name exactly; `None` when the array is empty or
no exact match exists. -/
def get_organization_info (org_name : String) (orgs : List Org) : Option Org :=
  if orgs.isEmpty then none
  else orgs.find? (fun o => o.name = some org_name)

/-- A mutating network request: `isPut = true` is the `PUT .../user` issued by
`add_member`, `isPut = false` is the `DELETE .../user?memberToRemoveId=` issued
by `remove_member`. `orgId` is the organization id interpolated into the URL
(`org_info.get('id')`, possibly `None`). -/
structure NetCall where
  isPut : Bool
  orgId : Option String
  userId : String
deriving DecidableEq

/-- The `add_member` method (lines 275-320): in dry-run mode return `True`
without issuing the PUT; otherwise issue the PUT (recorded in the trace) and
return `True` on success, `False` on a request exception. `mutOk` models the
remote outcome of the mutating call for the given user id. -/
def add_member (org_id : Option String) (user_id : String) (mutOk : String → Bool)
    (dry_run : Bool) : Bool × List NetCall :=
  if dry_run then (true, [])
  else (mutOk user_id, [⟨true, org_id, user_id⟩])

/-- The `remove_member` method (lines 235-273): in dry-run mode return `True`
without issuing the DELETE; otherwise issue the DELETE (recorded in the trace)
and return `True` on success, `False` on a request exception. -/
def remove_member (org_id : Option String) (user_id : String) (mutOk : String → Bool)
    (dry_run : Bool) : Bool × List NetCall :=
  if dry_run then (true, [])
  else (mutOk user_id, [⟨false, org_id, user_id⟩])

/-- The `--action` CLI choice: `add` or `remove`. -/
inductive Action where
  | add
  | remove
deriving DecidableEq

/-- Arguments of a `manage_members` run. `usernames` is the content of the
user file as read by `read_usernames_from_file` (stripped non-blank lines). -/
structure ManageArgs where
  action : Action
  org_name : String
  usernames : List String
  dry_run : Bool
  skip_confirmation : Bool

/-- The remote and interactive environment of a run: the organization-query
response, the all-users response, the outcome of each mutating call (by user
id), and the string `input()` returns at the confirmation prompt. -/
structure ManageEnv where
  orgs : List Org
  users : List RemoteUser
  mutOk : String → Bool
  confirmAnswer : String

/-- Observable outcome of a `manage_members` run: the returned boolean, the
trace of mutating network requests, the reports and counts the code computes,
whether the apply loop was reached, and whether the confirmation prompt was
shown. -/
structure ManageResult where
  ok : Bool
  calls : List NetCall
  missing : List String
  resolved : List (String × String)
  toProcess : List (String × String)
  alreadySatisfied : List (String × String)
  successCount : Nat
  failureCount : Nat
  reachedApply : Bool
  prompted : Bool
deriving DecidableEq

/-- The `users_to_process` filter (lines 407-423): for `add`, keep resolved
pairs whose id is not a current member; for `remove`, keep those whose id is. -/
def users_to_process (action : Action) (members : List String)
    (resolved : List (String × String)) : List (String × String) :=
  match action with
  | .add => resolved.filter (fun p => ¬ members.contains p.2)
  | .remove => resolved.filter (fun p => members.contains p.2)

/-- The skipped complement of `users_to_process`: `already_members` for `add`,
`not_members` for `remove`. -/
def already_satisfied (action : Action) (members : List String)
    (resolved : List (String × String)) : List (String × String) :=
  match action with
  | .add => resolved.filter (fun p => members.contains p.2)
  | .remove => resolved.filter (fun p => ¬ members.contains p.2)

/-- One iteration of the apply loop (lines 459-473): call `add_member` or
`remove_member` for the pair and update `(success_count, failure_count, trace)`. -/
def applyStep (action : Action) (org_id : Option String) (mutOk : String → Bool)
    (dry_run : Bool) (acc : Nat × Nat × List NetCall) (p : String × String) :
    Nat × Nat × List NetCall :=
  let r := match action with
    | .add => add_member org_id p.2 mutOk dry_run
    | .remove => remove_member org_id p.2 mutOk dry_run
  (acc.1 + (if r.1 then 1 else 0), acc.2.1 + (if r.1 then 0 else 1), acc.2.2 ++ r.2)

/-- The apply loop over `users_to_process`, starting from zero counts and an
empty trace. -/
def applyPhase (action : Action) (org_id : Option String) (mutOk : String → Bool)
    (dry_run : Bool) (toProc : List (String × String)) : Nat × Nat × List NetCall :=
  toProc.foldl (applyStep action org_id mutOk dry_run) (0, 0, [])

/-- Python `str.lower()` on the prompt answer: lower-case every character. -/
def pyLower (s : String) : String :=
  ⟨s.data.map Char.toLower⟩

/-- Python `str.strip()` with no argument: drop leading and trailing
whitespace characters. -/
def pyStrip (s : String) : String :=
  ⟨((s.data.dropWhile Char.isWhitespace).reverse.dropWhile Char.isWhitespace).reverse⟩

/-- The confirmation test (lines 449-450): the stripped, lower-cased answer is
accepted exactly when it is `yes` or `y`. -/
def answerAccepted (ans : String) : Bool :=
  pyLower (pyStrip ans) = "yes" ∨ pyLower (pyStrip ans) = "y"

/-- The `manage_members` method (lines 350-491), on the happy path of the
read-only fetches. Mirrors the source's early returns: organization not found
(line 380), no valid users (line 403), nothing to do (line 425), confirmation
declined (line 450); otherwise runs the apply loop and returns
`failure_count == 0` (line 487). -/
def manage_members (args : ManageArgs) (env : ManageEnv) : ManageResult :=
  match get_organization_info args.org_name env.orgs with
  | none =>
      ⟨false, [], [], [], [], [], 0, 0, false, false⟩
  | some org =>
      let org_id := org.id
      let current_members := org.members
      let resolved := user_ids_to_process args.usernames env.users
      let missing := missing_users args.usernames env.users
      if resolved.isEmpty then
        ⟨false, [], missing, resolved, [], [], 0, 0, false, false⟩
      else
        let toProc := users_to_process args.action current_members resolved
        let already := already_satisfied args.action current_members resolved
        if toProc.isEmpty then
          ⟨true, [], missing, resolved, toProc, already, 0, 0, false, false⟩
        else
          if ¬ args.skip_confirmation ∧ ¬ args.dry_run then
            if ¬ answerAccepted env.confirmAnswer then
              ⟨false, [], missing, resolved, toProc, already, 0, 0, false, true⟩
            else
              let r := applyPhase args.action org_id env.mutOk args.dry_run toProc
              ⟨r.2.1 = 0, r.2.2, missing, resolved, toProc, already,
               r.1, r.2.1, true, true⟩
          else
            let r := applyPhase args.action org_id env.mutOk args.dry_run toProc
            ⟨r.2.1 = 0, r.2.2, missing, resolved, toProc, already,
             r.1, r.2.1, true, false⟩

/-- The exit status `main` derives from `manage_members`'s return value
(line 596): `sys.exit(0 if success else 1)`. -/
def mainExitCode (ok : Bool) : Nat :=
  if ok then 0 else 1

end ManageOrgMembers

namespace DailyReports

/-- The HTTP response a non-raising attempt produced: `ok` is `response.ok`,
`parses` is whether `pd.read_csv` accepts the body, `writes` is whether
`df.to_excel` succeeds on the resulting frame. -/
structure Response where
  ok : Bool
  parses : Bool
  writes : Bool
deriving DecidableEq

/-- Outcome of one `requests.post` attempt: a raised
`requests.exceptions.RequestException` (transport error) or a response. -/
inductive Attempt where
  | transportError
  | response (r : Response)
deriving DecidableEq

/-- Final state of the retry loop of `generate_daily_report` (lines 33-53):
the value of `attempt`, the last bound value of the `response` variable
(`none` when it was never assigned), and the numbers of sleeps and requests
performed. -/
structure LoopResult where
  attempt : Nat
  last : Option Response
  sleeps : Nat
  requests : Nat
deriving DecidableEq

/-- The body of the `while attempt < max_retries` retry loop, structurally
recursive on `gas`, which under the invariant `gas = maxR - attempt` is
positive exactly when the loop condition `attempt < max_retries` holds. Each
iteration issues one request (`outcomes attempt` is its outcome); a transport
error or a non-ok response increments `attempt` and sleeps when attempts
remain; an ok response breaks out with `attempt` unchanged. -/
def retryLoopAux (outcomes : Nat → Attempt) (maxR : Nat) :
    Nat → Nat → Option Response → Nat → Nat → LoopResult
  | 0, attempt, last, sleeps, requests => ⟨attempt, last, sleeps, requests⟩
  | gas + 1, attempt, last, sleeps, requests =>
      match outcomes attempt with
      | .transportError =>
          retryLoopAux outcomes maxR gas (attempt + 1) last
            (if attempt + 1 < maxR then sleeps + 1 else sleeps) (requests + 1)
      | .response r =>
          if r.ok then ⟨attempt, some r, sleeps, requests + 1⟩
          else
            retryLoopAux outcomes maxR gas (attempt + 1) (some r)
              (if attempt + 1 < maxR then sleeps + 1 else sleeps) (requests + 1)

/-- The retry loop entered with `attempt`, establishing the gas invariant. -/
def retryLoop (outcomes : Nat → Attempt) (maxR : Nat) (attempt : Nat)
    (last : Option Response) (sleeps requests : Nat) : LoopResult :=
  retryLoopAux outcomes maxR (maxR - attempt) attempt last sleeps requests

/-- Result of a Python function call: either a returned boolean or an
exception escaping the function, carrying the exception's type name. -/
inductive PyOutcome where
  | ret (b : Bool)
  | raised (msg : String)
deriving DecidableEq

/-- Observable outcome of one `generate_daily_report` call: the Python result
and the numbers of sleeps, requests, and spreadsheet files written. -/
structure ReportRun where
  result : PyOutcome
  sleeps : Nat
  requests : Nat
  filesWritten : Nat
deriving DecidableEq

/-- The `generate_daily_report` function (lines 13-79): run the retry loop;
afterwards, when `attempt == max_retries` the code evaluates `response.ok` —
an `UnboundLocalError` if no attempt ever bound `response` — and returns
`False` when the last response was not ok; otherwise it parses the CSV body
(parse failure returns `False`), writes one spreadsheet (write failure returns
`False`), and returns `True`. -/
def generate_daily_report (outcomes : Nat → Attempt) (maxR : Nat) : ReportRun :=
  let L := retryLoop outcomes maxR 0 none 0 0
  if L.attempt = maxR then
    match L.last with
    | none => ⟨.raised "UnboundLocalError", L.sleeps, L.requests, 0⟩
    | some r =>
        if ¬ r.ok then ⟨.ret false, L.sleeps, L.requests, 0⟩
        else if ¬ r.parses then ⟨.ret false, L.sleeps, L.requests, 0⟩
        else if r.writes then ⟨.ret true, L.sleeps, L.requests, 1⟩
        else ⟨.ret false, L.sleeps, L.requests, 0⟩
  else
    match L.last with
    | none => ⟨.raised "UnboundLocalError", L.sleeps, L.requests, 0⟩
    | some r =>
        if ¬ r.parses then ⟨.ret false, L.sleeps, L.requests, 0⟩
        else if r.writes then ⟨.ret true, L.sleeps, L.requests, 1⟩
        else ⟨.ret false, L.sleeps, L.requests, 0⟩

/-- The per-day portion of `main`'s date loop (lines 137-150): process
`remaining` consecutive days starting at day index `d`; a day whose report
call raises aborts the whole loop (the exception is uncaught in `main`),
otherwise its boolean result is recorded and the loop moves to the next day.
Returns the total number of requests issued, the escaped exception if any,
and the per-day results in order. -/
def daysLoop (outcomes : Nat → Nat → Attempt) (maxR : Nat) :
    Nat → Nat → Nat × Option String × List Bool
  | 0, _ => (0, none, [])
  | remaining + 1, d =>
      let run := generate_daily_report (outcomes d) maxR
      match run.result with
      | .raised m => (run.requests, some m, [])
      | .ret b =>
          let rest := daysLoop outcomes maxR remaining (d + 1)
          (run.requests + rest.1, rest.2.1, b :: rest.2.2)

/-- Observable outcome of `main` after date parsing: `exitCode` is `some c`
when `sys.exit(c)` was called before the date loop, `totalRequests` counts
every HTTP request issued, `raised` carries an exception that escaped the
date loop, and `dayResults` lists each completed day's boolean result. -/
structure MainResult where
  exitCode : Option Nat
  totalRequests : Nat
  raised : Option String
  dayResults : List Bool
deriving DecidableEq

/-- The `main` function after successful date parsing (lines 132-150): dates
are modelled as day numbers in chronological order. When the start date is
after the end date, exit with status 1 before any network activity; otherwise
run `generate_daily_report` once per day of the inclusive range, continuing
past `False` results. -/
def reportMain (start_dt end_dt : Nat) (maxR : Nat)
    (outcomes : Nat → Nat → Attempt) : MainResult :=
  if start_dt > end_dt then ⟨some 1, 0, none, []⟩
  else
    let L := daysLoop outcomes maxR (end_dt - start_dt + 1) start_dt
    ⟨none, L.1, L.2.1, L.2.2⟩

end DailyReports

namespace ManageOrgMembers

lemma foldl_applyStep_dry (action : Action) (org_id : Option String)
    (mutOk : String → Bool) (tp : List (String × String)) :
    ∀ acc : Nat × Nat × List NetCall,
      tp.foldl (applyStep action org_id mutOk true) acc =
        (acc.1 + tp.length, acc.2.1, acc.2.2) := by
  induction tp with
  | nil => intro acc; simp
  | cons p tl ih =>
      intro acc
      rw [List.foldl_cons, ih]
      cases action <;>
        simp [applyStep, add_member, remove_member] <;> omega

lemma applyPhase_dry (action : Action) (org_id : Option String)
    (mutOk : String → Bool) (tp : List (String × String)) :
    applyPhase action org_id mutOk true tp = (tp.length, 0, []) := by
  unfold applyPhase
  rw [foldl_applyStep_dry]
  simp

lemma foldl_applyStep_counts (action : Action) (org_id : Option String)
    (mutOk : String → Bool) (dry : Bool) (tp : List (String × String)) :
    ∀ acc : Nat × Nat × List NetCall,
      (tp.foldl (applyStep action org_id mutOk dry) acc).1 +
        (tp.foldl (applyStep action org_id mutOk dry) acc).2.1 =
      acc.1 + acc.2.1 + tp.length := by
  induction tp with
  | nil => intro acc; simp
  | cons p tl ih =>
      intro acc
      rw [List.foldl_cons, ih]
      cases action <;> cases dry <;> cases hm : mutOk p.2 <;>
        simp [applyStep, add_member, remove_member, hm] <;> omega

lemma applyPhase_counts (action : Action) (org_id : Option String)
    (mutOk : String → Bool) (dry : Bool) (tp : List (String × String)) :
    (applyPhase action org_id mutOk dry tp).1 +
      (applyPhase action org_id mutOk dry tp).2.1 = tp.length := by
  unfold applyPhase
  rw [foldl_applyStep_counts]
  simp

lemma foldl_applyStep_calls (action : Action) (org_id : Option String)
    (mutOk : String → Bool) (dry : Bool) (tp : List (String × String)) :
    ∀ acc : Nat × Nat × List NetCall,
      ∀ c ∈ (tp.foldl (applyStep action org_id mutOk dry) acc).2.2,
        c ∈ acc.2.2 ∨ ∃ p, p ∈ tp ∧ c.userId = p.2 ∧ c.orgId = org_id := by
  induction tp with
  | nil => intro acc c hc; exact Or.inl hc
  | cons p tl ih =>
      intro acc c hc
      rw [List.foldl_cons] at hc
      rcases ih _ c hc with h | ⟨q, hq, hcq⟩
      · cases action <;> cases dry <;>
          simp [applyStep, add_member, remove_member] at h <;>
          first
            | exact Or.inl h
            | (rcases h with h | rfl
               · exact Or.inl h
               · exact Or.inr ⟨p, List.mem_cons_self _ _, rfl, rfl⟩)
      · exact Or.inr ⟨q, List.mem_cons_of_mem _ hq, hcq⟩

/-- C9: organization lookup requires an exact name match. Any organization
returned by `get_organization_info` has a `name` field equal to the requested
name character for character, and when every organization in the filtered
response has a name that merely contains or otherwise differs from the
requested name, the lookup returns none (and the run fails as if the
organization did not exist). -/
theorem get_organization_info_exact (org_name : String) (orgs : List Org) :
    (∀ o, get_organization_info org_name orgs = some o → o.name = some org_name) ∧
    ((∀ o ∈ orgs, o.name ≠ some org_name) →
      get_organization_info org_name orgs = none) := by
  constructor
  · intro o ho
    unfold get_organization_info at ho
    by_cases he : orgs.isEmpty
    · simp [he] at ho
    · rw [if_neg he] at ho
      simpa using List.find?_some ho
  · intro hall
    unfold get_organization_info
    by_cases he : orgs.isEmpty
    · simp [he]
    · rw [if_neg he]
      rw [List.find?_eq_none]
      intro o ho
      simpa using hall o ho

/-- Witness for C9 at concrete inputs: an exactly-matching organization is
returned with the exact name, and a response containing only an organization
whose name merely contains the requested name yields none. -/
theorem get_organization_info_exact_witness :
    (Org.mk (some "research") (some "org1") ["u1"]).name = some "research" ∧
    get_organization_info "research" [⟨some "research-team", some "org2", []⟩] = none := by
  constructor
  · exact (get_organization_info_exact "research"
      [⟨some "research", some "org1", ["u1"]⟩]).1 _ (by decide)
  · exact (get_organization_info_exact "research"
      [⟨some "research-team", some "org2", []⟩]).2 (by decide)

/-- C3: when dry-run mode is set, a `manage_members` run issues no mutating
network call whatever the other flags and inputs: the trace of PUT and DELETE
requests is empty, so remote membership is unchanged. -/
theorem manage_members_dry_run_no_calls (args : ManageArgs) (env : ManageEnv)
    (h : args.dry_run = true) : (manage_members args env).calls = [] := by
  unfold manage_members
  rw [h]
  split
  · rfl
  · dsimp only
    split
    · rfl
    · split
      · rfl
      · rw [if_neg (by simp)]
        simp [applyPhase_dry]

/-- Witness for C3: a concrete dry-run over one resolvable username that
would otherwise be added issues no network call. -/
theorem manage_members_dry_run_no_calls_witness :
    (manage_members ⟨.add, "eng", ["alice"], true, false⟩
      ⟨[⟨some "eng", some "o1", []⟩], [⟨some "alice", some "u1"⟩],
        fun _ => true, "yes"⟩).calls = [] :=
  manage_members_dry_run_no_calls _ _ rfl

lemma mem_user_ids_to_process {usernames : List String} {users : List RemoteUser}
    {p : String × String} :
    p ∈ user_ids_to_process usernames users ↔
      p.1 ∈ usernames ∧ resolveUser users p.1 = some p.2 := by
  unfold user_ids_to_process
  rw [List.mem_filterMap]
  constructor
  · rintro ⟨un, hun, hf⟩
    cases hr : resolveUser users un with
    | none => rw [hr] at hf; simp at hf
    | some uid =>
        rw [hr] at hf
        simp only [Option.map_some'] at hf
        cases hf
        exact ⟨hun, hr⟩
  · rintro ⟨h1, h2⟩
    exact ⟨p.1, h1, by simp [h2]⟩

lemma mem_users_to_process {action : Action} {members : List String}
    {resolved : List (String × String)} {p : String × String}
    (h : p ∈ users_to_process action members resolved) :
    p ∈ resolved ∧
      (action = .add → members.contains p.2 = false) ∧
      (action = .remove → members.contains p.2 = true) := by
  cases action <;> simp [users_to_process, List.mem_filter] at h <;>
    refine ⟨h.1, ?_, ?_⟩ <;> intro hact <;> simp_all

lemma mem_missing_users {usernames : List String} {users : List RemoteUser}
    {un : String} (h1 : un ∈ usernames) (h2 : resolveUser users un = none) :
    un ∈ missing_users usernames users := by
  unfold missing_users
  rw [List.mem_filter]
  exact ⟨h1, by simp [h2]⟩

lemma length_filter_partition {α : Type} (p : α → Bool) (l : List α) :
    (l.filter p).length + (l.filter (fun x => !p x)).length = l.length := by
  induction l with
  | nil => rfl
  | cons x xs ih => by_cases h : p x <;> simp [List.filter, h] <;> omega

lemma users_to_process_partition (action : Action) (members : List String)
    (resolved : List (String × String)) :
    (users_to_process action members resolved).length +
      (already_satisfied action members resolved).length = resolved.length := by
  have hf : (fun q : String × String => (¬ members.contains q.2 : Bool)) =
      (fun q : String × String => !(members.contains q.2)) := by
    funext q
    by_cases h : members.contains q.2 <;> simp [h]
  have h2 := length_filter_partition (fun q : String × String => members.contains q.2) resolved
  cases action <;> unfold users_to_process already_satisfied <;> dsimp only <;>
    rw [hf] <;> omega

/-- C2: a mutating call is made only for a username that resolved to a remote
user id in the bulk lookup and whose id requires a change for the chosen
action (not a current member when adding, a current member when removing);
every pair in the apply list is resolved and requires a change, and an
unresolved username never reaches the apply list and is reported in the
not-found list. -/
theorem manage_members_mutations_require_resolution_and_change
    (args : ManageArgs) (env : ManageEnv) :
    (∀ c ∈ (manage_members args env).calls,
        ∃ p, p ∈ (manage_members args env).toProcess ∧ c.userId = p.2) ∧
    (∀ org, get_organization_info args.org_name env.orgs = some org →
        ∀ p ∈ (manage_members args env).toProcess,
          p.1 ∈ args.usernames ∧ resolveUser env.users p.1 = some p.2 ∧
          (args.action = .add → org.members.contains p.2 = false) ∧
          (args.action = .remove → org.members.contains p.2 = true)) ∧
    (∀ org, get_organization_info args.org_name env.orgs = some org →
        ∀ un ∈ args.usernames, resolveUser env.users un = none →
          un ∈ (manage_members args env).missing) := by
  unfold manage_members
  cases hg : get_organization_info args.org_name env.orgs with
  | none =>
      refine ⟨?_, ?_, ?_⟩
      · intro c hc
        simp at hc
      · intro org horg
        cases horg
      · intro org horg
        cases horg
  | some org₁ =>
      dsimp only
      have hproc : ∀ org, (some org₁ : Option Org) = some org →
          ∀ p ∈ users_to_process args.action org₁.members
              (user_ids_to_process args.usernames env.users),
            p.1 ∈ args.usernames ∧ resolveUser env.users p.1 = some p.2 ∧
            (args.action = .add → org.members.contains p.2 = false) ∧
            (args.action = .remove → org.members.contains p.2 = true) := by
        intro org horg p hp
        cases horg
        obtain ⟨hres, hadd, hrem⟩ := mem_users_to_process hp
        obtain ⟨hu1, hu2⟩ := mem_user_ids_to_process.mp hres
        exact ⟨hu1, hu2, hadd, hrem⟩
      have hmiss : ∀ org, (some org₁ : Option Org) = some org →
          ∀ un ∈ args.usernames, resolveUser env.users un = none →
            un ∈ missing_users args.usernames env.users := by
        intro org _ un hun hres
        exact mem_missing_users hun hres
      split
      · exact ⟨fun c hc => by simp at hc, fun org horg p hp => by simp at hp, hmiss⟩
      · split
        · exact ⟨fun c hc => by simp at hc, hproc, hmiss⟩
        · split
          · split
            · exact ⟨fun c hc => by simp at hc, hproc, hmiss⟩
            · refine ⟨?_, hproc, hmiss⟩
              intro c hc
              rcases foldl_applyStep_calls args.action org₁.id env.mutOk args.dry_run
                  _ _ c hc with h | ⟨p, hp, hc1, _⟩
              · simp at h
              · exact ⟨p, hp, hc1⟩
          · refine ⟨?_, hproc, hmiss⟩
            intro c hc
            rcases foldl_applyStep_calls args.action org₁.id env.mutOk args.dry_run
                _ _ c hc with h | ⟨p, hp, hc1, _⟩
            · simp at h
            · exact ⟨p, hp, hc1⟩

/-- Witness for C2: in a concrete run, the single issued PUT targets the one
resolved, non-member user id, and the unresolved username `bob` appears in
the not-found report. -/
theorem manage_members_mutations_require_resolution_and_change_witness :
    (∃ p, p ∈ (manage_members ⟨.add, "eng", ["alice", "bob"], false, true⟩
        ⟨[⟨some "eng", some "o1", ["u9"]⟩], [⟨some "alice", some "u1"⟩],
          fun _ => true, "yes"⟩).toProcess ∧
      (NetCall.mk true (some "o1") "u1").userId = p.2) ∧
    "bob" ∈ (manage_members ⟨.add, "eng", ["alice", "bob"], false, true⟩
        ⟨[⟨some "eng", some "o1", ["u9"]⟩], [⟨some "alice", some "u1"⟩],
          fun _ => true, "yes"⟩).missing := by
  constructor
  · exact (manage_members_mutations_require_resolution_and_change
      ⟨.add, "eng", ["alice", "bob"], false, true⟩
      ⟨[⟨some "eng", some "o1", ["u9"]⟩], [⟨some "alice", some "u1"⟩],
        fun _ => true, "yes"⟩).1 ⟨true, some "o1", "u1"⟩ (by decide)
  · exact (manage_members_mutations_require_resolution_and_change
      ⟨.add, "eng", ["alice", "bob"], false, true⟩
      ⟨[⟨some "eng", some "o1", ["u9"]⟩], [⟨some "alice", some "u1"⟩],
        fun _ => true, "yes"⟩).2.2 ⟨some "eng", some "o1", ["u9"]⟩ (by decide)
      "bob" (by decide) (by decide)

/-- C8: in every run that reaches the apply phase, the resolved count equals
the processed count plus the already-satisfied count for the chosen action,
and the processed count equals the successes plus the failures. -/
theorem manage_members_summary_counts (args : ManageArgs) (env : ManageEnv)
    (h : (manage_members args env).reachedApply = true) :
    (manage_members args env).resolved.length =
      (manage_members args env).toProcess.length +
        (manage_members args env).alreadySatisfied.length ∧
    (manage_members args env).toProcess.length =
      (manage_members args env).successCount +
        (manage_members args env).failureCount := by
  revert h
  unfold manage_members
  cases hg : get_organization_info args.org_name env.orgs with
  | none => intro h; simp at h
  | some org₁ =>
      dsimp only
      split
      · intro h; simp at h
      · split
        · intro h; simp at h
        · split
          · split
            · intro h; simp at h
            · intro _
              exact ⟨(users_to_process_partition args.action org₁.members _).symm,
                (applyPhase_counts args.action org₁.id env.mutOk args.dry_run _).symm⟩
          · intro _
            exact ⟨(users_to_process_partition args.action org₁.members _).symm,
              (applyPhase_counts args.action org₁.id env.mutOk args.dry_run _).symm⟩

/-- Witness for C8: a concrete run over two resolvable usernames, one already
a member, reaches the apply phase and satisfies both count identities. -/
theorem manage_members_summary_counts_witness :
    (manage_members ⟨.add, "eng", ["alice", "carol"], false, true⟩
      ⟨[⟨some "eng", some "o1", ["u9"]⟩],
        [⟨some "alice", some "u1"⟩, ⟨some "carol", some "u9"⟩],
        fun _ => true, "yes"⟩).reachedApply = true ∧
    (manage_members ⟨.add, "eng", ["alice", "carol"], false, true⟩
      ⟨[⟨some "eng", some "o1", ["u9"]⟩],
        [⟨some "alice", some "u1"⟩, ⟨some "carol", some "u9"⟩],
        fun _ => true, "yes"⟩).resolved.length =
      (manage_members ⟨.add, "eng", ["alice", "carol"], false, true⟩
        ⟨[⟨some "eng", some "o1", ["u9"]⟩],
          [⟨some "alice", some "u1"⟩, ⟨some "carol", some "u9"⟩],
          fun _ => true, "yes"⟩).toProcess.length +
        (manage_members ⟨.add, "eng", ["alice", "carol"], false, true⟩
          ⟨[⟨some "eng", some "o1", ["u9"]⟩],
            [⟨some "alice", some "u1"⟩, ⟨some "carol", some "u9"⟩],
            fun _ => true, "yes"⟩).alreadySatisfied.length :=
  ⟨by decide, (manage_members_summary_counts _ _ (by decide)).1⟩

lemma mainExitCode_eq_zero (b : Bool) : mainExitCode b = 0 ↔ b = true := by
  cases b <;> simp [mainExitCode]

/-- C1 (amended): in every run that reaches the apply phase, `manage_members`
returns True iff the failure count is zero, and in every run the process exit
status is 0 iff `manage_members` returned True — so fatal preconditions,
cancellation at the prompt, and non-zero failure counts all exit non-zero. -/
theorem manage_members_success_iff_zero_failures (args : ManageArgs) (env : ManageEnv) :
    ((manage_members args env).reachedApply = true →
      ((manage_members args env).ok = true ↔
        (manage_members args env).failureCount = 0)) ∧
    (mainExitCode (manage_members args env).ok = 0 ↔
      (manage_members args env).ok = true) := by
  constructor
  · unfold manage_members
    cases hg : get_organization_info args.org_name env.orgs with
    | none => intro h; simp at h
    | some org₁ =>
        dsimp only
        split
        · intro h; simp at h
        · split
          · intro h; simp at h
          · split
            · split
              · intro h; simp at h
              · intro _; simp
            · intro _; simp
  · exact mainExitCode_eq_zero _

/-- Witness for C1's amended theorem: a concrete fully successful run reaches
the apply phase and, having zero failures, returns True. -/
theorem manage_members_success_iff_zero_failures_witness :
    (manage_members ⟨.add, "eng", ["alice"], false, true⟩
      ⟨[⟨some "eng", some "o1", []⟩], [⟨some "alice", some "u1"⟩],
        fun _ => true, "yes"⟩).reachedApply = true ∧
    (manage_members ⟨.add, "eng", ["alice"], false, true⟩
      ⟨[⟨some "eng", some "o1", []⟩], [⟨some "alice", some "u1"⟩],
        fun _ => true, "yes"⟩).ok = true :=
  ⟨by decide,
    ((manage_members_success_iff_zero_failures ⟨.add, "eng", ["alice"], false, true⟩
      ⟨[⟨some "eng", some "o1", []⟩], [⟨some "alice", some "u1"⟩],
        fun _ => true, "yes"⟩).1 (by decide)).mpr (by decide)⟩

/-- Counterexample to C1 as stated: a run whose confirmation prompt is
answered "no" has zero failed mutations (indeed it attempts none) and yet
`manage_members` returns False, so "returns True iff failure_count == 0" does
not hold of every run; no fatal precondition occurred (the prompt was shown,
which requires the file read, the organization lookup, and the user
resolution all to have succeeded). -/
theorem manage_members_success_iff_zero_failures_counterexample :
    (manage_members ⟨.add, "eng", ["alice"], false, false⟩
      ⟨[⟨some "eng", some "o1", []⟩], [⟨some "alice", some "u1"⟩],
        fun _ => true, "no"⟩).prompted = true ∧
    (manage_members ⟨.add, "eng", ["alice"], false, false⟩
      ⟨[⟨some "eng", some "o1", []⟩], [⟨some "alice", some "u1"⟩],
        fun _ => true, "no"⟩).failureCount = 0 ∧
    (manage_members ⟨.add, "eng", ["alice"], false, false⟩
      ⟨[⟨some "eng", some "o1", []⟩], [⟨some "alice", some "u1"⟩],
        fun _ => true, "no"⟩).calls = [] ∧
    (manage_members ⟨.add, "eng", ["alice"], false, false⟩
      ⟨[⟨some "eng", some "o1", []⟩], [⟨some "alice", some "u1"⟩],
        fun _ => true, "no"⟩).ok = false := by
  decide

/-- C10: when the confirmation prompt is shown and the stripped, lower-cased
answer is neither "yes" nor "y", `manage_members` returns False without
issuing any mutating call, and the process exits with status 1. -/
theorem manage_members_prompt_declined (args : ManageArgs) (env : ManageEnv)
    (hp : (manage_members args env).prompted = true)
    (hd : answerAccepted env.confirmAnswer = false) :
    (manage_members args env).ok = false ∧
    (manage_members args env).calls = [] ∧
    mainExitCode (manage_members args env).ok = 1 := by
  revert hp
  unfold manage_members
  cases hg : get_organization_info args.org_name env.orgs with
  | none => intro hp; simp at hp
  | some org₁ =>
      dsimp only
      split
      · intro hp; simp at hp
      · split
        · intro hp; simp at hp
        · split
          · split
            · intro _
              exact ⟨rfl, rfl, rfl⟩
            · next hcond =>
                intro _
                simp [hd] at hcond
          · intro hp
            simp at hp

/-- Witness for C10: a concrete run prompted and answered " NO " (stripping
and lower-casing gives "no") returns False, issues no call, and exits 1. -/
theorem manage_members_prompt_declined_witness :
    (manage_members ⟨.remove, "eng", ["carol"], false, false⟩
      ⟨[⟨some "eng", some "o1", ["u9"]⟩], [⟨some "carol", some "u9"⟩],
        fun _ => true, " NO "⟩).ok = false ∧
    (manage_members ⟨.remove, "eng", ["carol"], false, false⟩
      ⟨[⟨some "eng", some "o1", ["u9"]⟩], [⟨some "carol", some "u9"⟩],
        fun _ => true, " NO "⟩).calls = [] ∧
    mainExitCode (manage_members ⟨.remove, "eng", ["carol"], false, false⟩
      ⟨[⟨some "eng", some "o1", ["u9"]⟩], [⟨some "carol", some "u9"⟩],
        fun _ => true, " NO "⟩).ok = 1 :=
  manage_members_prompt_declined _ _ (by decide) (by decide)

end ManageOrgMembers

namespace DailyReports

lemma retryLoopAux_run (outcomes : Nat → Attempt) (maxR k : Nat) (r : Response)
    (hk : k < maxR) (hr : r.ok = true) (hko : outcomes k = .response r)
    (hfail : ∀ i, i < k → outcomes i = .transportError ∨
        ∃ s, outcomes i = .response s ∧ s.ok = false) :
    ∀ gas attempt, gas = maxR - attempt → attempt ≤ k →
      ∀ last sleeps requests,
        retryLoopAux outcomes maxR gas attempt last sleeps requests =
          ⟨k, some r, sleeps + (k - attempt), requests + (k - attempt) + 1⟩ := by
  intro gas
  induction gas with
  | zero => intro attempt hg ha; omega
  | succ g ih =>
      intro attempt hg ha last sleeps requests
      by_cases hak : attempt = k
      · subst hak
        rw [retryLoopAux, hko]
        dsimp only
        rw [if_pos hr]
        simp
      · have halt : attempt < k := by omega
        rcases hfail attempt halt with hte | ⟨s, hs, hsok⟩
        · rw [retryLoopAux, hte]
          dsimp only
          rw [ih (attempt + 1) (by omega) (by omega)]
          rw [if_pos (by omega)]
          simp only [LoopResult.mk.injEq, true_and, and_true]
          omega
        · rw [retryLoopAux, hs]
          dsimp only
          rw [if_neg (by simp [hsok])]
          rw [ih (attempt + 1) (by omega) (by omega)]
          rw [if_pos (by omega)]
          simp only [LoopResult.mk.injEq, true_and, and_true]
          omega

lemma retryLoop_run (outcomes : Nat → Attempt) (maxR k : Nat) (r : Response)
    (hk : k < maxR) (hr : r.ok = true) (hko : outcomes k = .response r)
    (hfail : ∀ i, i < k → outcomes i = .transportError ∨
        ∃ s, outcomes i = .response s ∧ s.ok = false) :
    retryLoop outcomes maxR 0 none 0 0 = ⟨k, some r, k, k + 1⟩ := by
  unfold retryLoop
  rw [retryLoopAux_run outcomes maxR k r hk hr hko hfail (maxR - 0) 0 rfl (by omega)]
  simp

end DailyReports

namespace DailyReports

/-- C4: for every max-retries value N ≥ 1, if the first N-1 attempts fail
(transport error or non-success HTTP status) and attempt N succeeds with a
well-formed body whose spreadsheet write succeeds, `generate_daily_report`
sleeps exactly N-1 times, issues exactly N requests, writes exactly one
spreadsheet file, and returns success. -/
theorem generate_daily_report_eventual_success (outcomes : Nat → Attempt) (N : Nat)
    (hN : 1 ≤ N)
    (hfail : ∀ i, i < N - 1 → outcomes i = .transportError ∨
        ∃ s, outcomes i = .response s ∧ s.ok = false)
    (hsucc : outcomes (N - 1) = .response ⟨true, true, true⟩) :
    generate_daily_report outcomes N = ⟨.ret true, N - 1, N, 1⟩ := by
  have hloop := retryLoop_run outcomes N (N - 1) ⟨true, true, true⟩
    (by omega) rfl hsucc hfail
  unfold generate_daily_report
  rw [hloop]
  dsimp only
  rw [if_neg (by omega)]
  norm_num
  omega

/-- Witness for C4: with three max retries, two transport errors followed by
a fully successful attempt yield two sleeps, three requests, one file written
and a True result. -/
theorem generate_daily_report_eventual_success_witness :
    generate_daily_report
      (fun i => if i < 2 then .transportError else .response ⟨true, true, true⟩) 3 =
      ⟨.ret true, 2, 3, 1⟩ := by
  have h := generate_daily_report_eventual_success
    (fun i => if i < 2 then .transportError else .response ⟨true, true, true⟩) 3
    (by omega)
    (by
      intro i hi
      left
      dsimp only
      rw [if_pos (by omega)])
    (by norm_num)
  simpa using h

/-- C6: when the parsed start date is strictly after the parsed end date, the
reporting flow exits with status 1 before any network activity: no request is
issued and no per-day report call is made. -/
theorem reportMain_start_after_end_fails_fast (s e maxR : Nat)
    (outcomes : Nat → Nat → Attempt) (h : s > e) :
    reportMain s e maxR outcomes = ⟨some 1, 0, none, []⟩ := by
  unfold reportMain
  rw [if_pos h]

/-- Witness for C6: a concrete range whose start day is after its end day
exits 1 with zero requests even though the service would answer. -/
theorem reportMain_start_after_end_fails_fast_witness :
    reportMain 5 3 3 (fun _ _ => Attempt.response ⟨true, true, true⟩) =
      ⟨some 1, 0, none, []⟩ :=
  reportMain_start_after_end_fails_fast 5 3 3 _ (by omega)

/-- C5 (evaluation at the failing input): when every attempt for a date
raises a transport error, the `response` variable is never bound, so the
post-loop test `not response.ok` raises UnboundLocalError instead of
returning False; the exception escapes `generate_daily_report` (which the
code's own exhaustion branch shows was meant to return False) and aborts
`main`'s date loop, so the following date of the range is never processed. -/
theorem generate_daily_report_all_transport_errors_raises :
    generate_daily_report (fun _ => Attempt.transportError) 3 =
      ⟨.raised "UnboundLocalError", 2, 3, 0⟩ ∧
    reportMain 0 1 3 (fun _ _ => Attempt.transportError) =
      ⟨none, 3, some "UnboundLocalError", []⟩ := by
  constructor <;> rfl

end DailyReports

namespace ManageOrgMembers

lemma manage_members_ok_shape (args : ManageArgs) (env : ManageEnv)
    (h : (manage_members args env).ok = true) :
    ∃ org, get_organization_info args.org_name env.orgs = some org ∧
      user_ids_to_process args.usernames env.users ≠ [] ∧
      (manage_members args env).toProcess =
        users_to_process args.action org.members
          (user_ids_to_process args.usernames env.users) := by
  revert h
  unfold manage_members
  cases hg : get_organization_info args.org_name env.orgs with
  | none => intro h; simp at h
  | some org₁ =>
      dsimp only
      split
      · intro h; simp at h
      · next hne =>
          have hne' : user_ids_to_process args.usernames env.users ≠ [] := by
            simpa [List.isEmpty_iff] using hne
          split
          · intro _
            exact ⟨org₁, rfl, hne', rfl⟩
          · split
            · split
              · intro h; simp at h
              · intro _
                exact ⟨org₁, rfl, hne', rfl⟩
            · intro _
              exact ⟨org₁, rfl, hne', rfl⟩

lemma manage_members_nothing_to_do (args : ManageArgs) (env : ManageEnv) (org : Org)
    (horg : get_organization_info args.org_name env.orgs = some org)
    (hne : user_ids_to_process args.usernames env.users ≠ [])
    (hall : users_to_process args.action org.members
        (user_ids_to_process args.usernames env.users) = []) :
    (manage_members args env).calls = [] ∧ (manage_members args env).ok = true := by
  unfold manage_members
  rw [horg]
  dsimp only
  rw [if_neg (by simpa [List.isEmpty_iff] using hne)]
  rw [if_pos (by simp [hall])]
  exact ⟨rfl, rfl⟩

/-- C7: the add action is idempotent with respect to mutations. After a fully
successful first "add" run (the run returned True), re-running the same
arguments against the remote state in which the first run's processed user
ids have been appended to the organization's member list — and nothing else
changed — issues zero mutating calls and returns success, because every
resolved user id is then already a member and is excluded from the apply
phase. -/
theorem manage_members_add_idempotent (args : ManageArgs) (env : ManageEnv) (org : Org)
    (ha : args.action = .add) (hdry : args.dry_run = false)
    (horg : get_organization_info args.org_name env.orgs = some org)
    (hok : (manage_members args env).ok = true) :
    (manage_members args
      ⟨[⟨org.name, org.id,
          org.members ++ (manage_members args env).toProcess.map Prod.snd⟩],
        env.users, env.mutOk, env.confirmAnswer⟩).calls = [] ∧
    (manage_members args
      ⟨[⟨org.name, org.id,
          org.members ++ (manage_members args env).toProcess.map Prod.snd⟩],
        env.users, env.mutOk, env.confirmAnswer⟩).ok = true := by
  obtain ⟨org₁, horg₁, hne, htp⟩ := manage_members_ok_shape args env hok
  rw [horg] at horg₁
  obtain rfl : org₁ = org := (Option.some.inj horg₁).symm
  have hname : org₁.name = some args.org_name :=
    (get_organization_info_exact args.org_name env.orgs).1 org₁ horg
  have hfound : get_organization_info args.org_name
      [⟨org₁.name, org₁.id,
        org₁.members ++ (manage_members args env).toProcess.map Prod.snd⟩] =
      some ⟨org₁.name, org₁.id,
        org₁.members ++ (manage_members args env).toProcess.map Prod.snd⟩ := by
    unfold get_organization_info
    rw [if_neg (by simp)]
    rw [List.find?_cons_of_pos _ (by simp [hname])]
  apply manage_members_nothing_to_do args
    ⟨[⟨org₁.name, org₁.id,
        org₁.members ++ (manage_members args env).toProcess.map Prod.snd⟩],
      env.users, env.mutOk, env.confirmAnswer⟩ _ hfound hne
  rw [ha]
  rw [ha] at htp
  unfold users_to_process
  dsimp only
  rw [List.filter_eq_nil_iff]
  intro p hp
  simp
  intro hc
  refine ⟨p.1, ?_⟩
  rw [htp]
  unfold users_to_process
  dsimp only
  rw [List.mem_filter]
  exact ⟨hp, by simp [hc]⟩

/-- Witness for C7: a concrete first run adds `u1` to an organization that
already contains `u9`; a second run against the resulting member list issues
zero mutating calls and returns True. -/
theorem manage_members_add_idempotent_witness :
    (manage_members ⟨.add, "eng", ["alice", "carol"], false, true⟩
      ⟨[⟨some "eng", some "o1", ["u9", "u1"]⟩],
        [⟨some "alice", some "u1"⟩, ⟨some "carol", some "u9"⟩],
        fun _ => true, "yes"⟩).calls = [] ∧
    (manage_members ⟨.add, "eng", ["alice", "carol"], false, true⟩
      ⟨[⟨some "eng", some "o1", ["u9", "u1"]⟩],
        [⟨some "alice", some "u1"⟩, ⟨some "carol", some "u9"⟩],
        fun _ => true, "yes"⟩).ok = true :=
  manage_members_add_idempotent
    ⟨.add, "eng", ["alice", "carol"], false, true⟩
    ⟨[⟨some "eng", some "o1", ["u9"]⟩],
      [⟨some "alice", some "u1"⟩, ⟨some "carol", some "u9"⟩],
      fun _ => true, "yes"⟩
    ⟨some "eng", some "o1", ["u9"]⟩ rfl rfl (by decide) (by decide)

end ManageOrgMembers
